import Mathlib

/-!
# Verification of the OpenCrabs A2A protocol engine

Shallow embedding of the A2A (Agent-to-Agent) core of the repository:
the JSON-RPC task-lifecycle handlers (`src/a2a/handler.rs`) and the
multi-round debate orchestrator with its consensus analyzer
(`src/a2a/debate.rs`).

Modelling conventions:
* Rust `f64` values (confidences, thresholds) are modelled as exact
  rationals `ℚ`; floating-point rounding is abstracted away.
* `Uuid::new_v4()` and `chrono::Utc::now()` are impure; each fresh value
  is passed in as an explicit parameter.
* `std::collections::HashMap` contents are modelled as association lists
  in first-insertion order; its *iteration order* is unspecified in Rust
  (seeded per instance), so functions that iterate a map are
  parameterised by an arbitrary permutation of the entries.
* The data types of `src/a2a/types.rs` (not part of the sources at hand)
  are modelled from the specification's data-model section.
-/

namespace OpenCrabs

/-- Modelled from the spec: role of a message author
(`Role` in `src/a2a/types.rs`). -/
inductive Role where
  | User
  | Agent
deriving DecidableEq, Repr

/-- A metadata value as stored in a message metadata map
(`serde_json::Value`; only numbers and strings are ever inserted by the
code under scrutiny). -/
inductive MetaValue where
  | nat (n : Nat)
  | str (s : String)
deriving DecidableEq, Repr

/-- Modelled from the spec: a content part of a message
(`Part` in `src/a2a/types.rs`); only its optional text is used by the
handlers and the debate engine. -/
structure Part where
  text : Option String
deriving DecidableEq, Repr

/-- `Part::text(s)` constructor (named `mkText` because Lean does not
allow a definition to shadow the `text` field accessor). -/
def Part.mkText (s : String) : Part := ⟨some s⟩

/-- Modelled from the spec: an A2A `Message`
(`Message` in `src/a2a/types.rs`). The metadata map is kept as an
association list in insertion order. -/
structure Message where
  message_id : Option String
  context_id : Option String
  task_id : Option String
  role : Role
  parts : List Part
  metadata : Option (List (String × MetaValue))
deriving DecidableEq, Repr

-- ─── Debate data model (src/a2a/debate.rs) ───────────────────

/-- Configuration for a Bee Colony debate session (`DebateConfig`). -/
structure DebateConfig where
  topic : String
  num_bees : Nat
  max_rounds : Nat
  consensus_threshold : ℚ
  knowledge_context : List String
  bee_endpoints : List String
deriving DecidableEq, Repr

/-- serde default for `max_rounds`. -/
def default_max_rounds : Nat := 3

/-- serde default for `consensus_threshold`. -/
def default_consensus_threshold : ℚ := 8 / 10

/-- A single Bee's response in a debate round (`BeeResponse`). -/
structure BeeResponse where
  bee_id : String
  endpoint : String
  content : String
  confidence : ℚ
  position : Option String
  key_points : List String
deriving DecidableEq, Repr

/-- Analysis of consensus after a debate round (`ConsensusAnalysis`). -/
structure ConsensusAnalysis where
  avg_confidence : ℚ
  agreement_points : List String
  contention_points : List String
  blind_spots : List String
  consensus_reached : Bool
deriving DecidableEq, Repr

/-- A single round in the debate (`DebateRound`). -/
structure DebateRound where
  round_number : Nat
  prompt : String
  responses : List BeeResponse
  consensus : Option ConsensusAnalysis
deriving DecidableEq, Repr

/-- State of the debate (`DebateState`). -/
inductive DebateState where
  | Pending
  | InRound
  | Analyzing
  | Concluded
  | Exhausted
deriving DecidableEq, Repr

/-- The full state of a debate session (`DebateSession`). -/
structure DebateSession where
  id : String
  config : DebateConfig
  current_round : Nat
  rounds : List DebateRound
  final_synthesis : Option String
  state : DebateState
deriving DecidableEq, Repr

/-- `DebateSession::new(config)`; the `Uuid::new_v4()` session id is
passed in explicitly. -/
def DebateSession.new (id : String) (config : DebateConfig) : DebateSession :=
  { id := id
    config := config
    current_round := 0
    rounds := []
    final_synthesis := none
    state := DebateState.Pending }

-- ─── Consensus analyzer ──────────────────────────────────────

/-- `str::to_lowercase()` on a position string: per-character lowercase
mapping (written over the character list so that it evaluates by kernel
reduction; Unicode multi-character expansions are out of scope for the
ASCII positions at hand). -/
def strToLower (s : String) : String := String.mk (s.data.map Char.toLower)

/-- One `*position_counts.entry(key).or_insert(0) += 1` step on the
association-list view of the `HashMap<String, usize>`: bump the count of
`key` if present, otherwise append `(key, 1)`. -/
def bumpCount : List (String × Nat) → String → List (String × Nat)
  | [], key => [(key, 1)]
  | (k, c) :: rest, key =>
      if k = key then (k, c + 1) :: rest else (k, c) :: bumpCount rest key

/-- Contents of the `position_counts` map built by `analyze_consensus`:
every response carrying a `position` contributes one count to the group
keyed by its lowercased position; positionless responses contribute to
no group. Entries are listed in first-insertion order. -/
def positionCounts (responses : List BeeResponse) : List (String × Nat) :=
  responses.foldl
    (fun acc r =>
      match r.position with
      | some pos => bumpCount acc (strToLower pos)
      | none => acc)
    []

/-- Rendering `format!("{} ({}/{} agree)", pos, count, total)`. -/
def renderPoint (total : Nat) (p : String × Nat) : String :=
  p.1 ++ " (" ++ toString p.2 ++ "/" ++ toString total ++ " agree)"

/-- `DebateSession::analyze_consensus(responses, threshold)`, with the
iteration order of the `position_counts` hash map made explicit: `order`
is the sequence in which the map's entries are visited (Rust's
`HashMap` iterates in an unspecified, per-instance-seeded order, so the
code only guarantees that `order` is *some* permutation of the map's
entries, i.e. of `positionCounts responses`). -/
def analyzeConsensusWith (order : List (String × Nat))
    (responses : List BeeResponse) (threshold : ℚ) : ConsensusAnalysis :=
  let avg_confidence : ℚ :=
    if responses.isEmpty then 0
    else (responses.map (·.confidence)).sum / responses.length
  let total := responses.length
  let agreement_points :=
    (order.filter (fun p => decide ((p.2 : ℚ) / (total : ℚ) ≥ threshold))).map
      (renderPoint total)
  let contention_points :=
    (order.filter (fun p =>
      decide (0 < (p.2 : ℚ) / (total : ℚ) ∧ (p.2 : ℚ) / (total : ℚ) < threshold))).map
      (renderPoint total)
  { avg_confidence := avg_confidence
    agreement_points := agreement_points
    contention_points := contention_points
    blind_spots := []
    consensus_reached :=
      decide (avg_confidence ≥ threshold) && !agreement_points.isEmpty }

/-- `analyze_consensus` with the canonical (first-insertion) iteration
order; used where the result does not depend on the order. -/
def analyzeConsensus (responses : List BeeResponse) (threshold : ℚ) :
    ConsensusAnalysis :=
  analyzeConsensusWith (positionCounts responses) responses threshold

-- ─── Round prompts and fan-out ───────────────────────────────

/-- Rust `format!("{:.1}", x)` on a (nonnegative) confidence: one
decimal digit; decimal rendering of `f64` is approximated by rounding
the rational half-up. -/
def fmt1 (q : ℚ) : String :=
  let r : Int := ⌊q * 10 + 1 / 2⌋
  toString (r / 10) ++ "." ++ toString (r % 10)

/-- `DebateSession::round1_prompt`. -/
def DebateSession.round1_prompt (s : DebateSession) : String :=
  let base :=
    "## Debate Topic\n\n" ++ s.config.topic ++
    "\n\n## Your Task (Round 1 — Independent Research)\n\n" ++
    "Analyze this topic from your unique perspective. Provide:\n" ++
    "1. Your **position** on the topic\n" ++
    "2. **Key arguments** supporting your position\n" ++
    "3. **Evidence** or reasoning\n" ++
    "4. **Confidence score** (0.0-1.0) in your position\n" ++
    "5. **Potential counterarguments** you anticipate\n"
  if s.config.knowledge_context.isEmpty then base
  else
    base ++ "\n## Knowledge Base Context\n\n" ++
    "The following verified knowledge has been loaded. " ++
    "Use it to inform your analysis, but think beyond it:\n\n" ++
    String.join ((s.config.knowledge_context.enum).map
      (fun p => "### Source " ++ toString (p.1 + 1) ++ "\n" ++ p.2 ++ "\n\n"))

/-- `DebateSession::critique_prompt(round_num)`. The Rust body indexes
`self.rounds[round_num - 2]` on `usize` with no guard: `round_num < 2`
underflows the subtraction and `round_num - 2 ≥ rounds.len()` is out of
bounds — both panic, modelled as `none`. -/
def DebateSession.critique_prompt (s : DebateSession) (round_num : Nat) :
    Option String :=
  if round_num < 2 then none
  else
    (s.rounds.get? (round_num - 2)).map (fun prev_round =>
      "## Debate Topic\n\n" ++ s.config.topic ++
      "\n\n## Round " ++ toString round_num ++ " — Critique & Synthesis\n\n" ++
      "You have seen all participants\x27 responses from Round " ++
      toString (round_num - 1) ++ ". Your task:\n" ++
      "1. **Identify agreements** — what do most participants agree on?\n" ++
      "2. **Challenge weak arguments** — which positions lack evidence?\n" ++
      "3. **Synthesize insights** — combine the strongest ideas\n" ++
      "4. **Update your position** if others\x27 arguments changed your mind\n" ++
      "5. **Confidence score** (0.0-1.0) — has your confidence changed?\n\n" ++
      "## Previous Round Responses\n\n" ++
      String.join (prev_round.responses.map (fun r =>
        "### Bee " ++ r.bee_id ++ " (confidence: " ++ fmt1 r.confidence ++
        ")\n" ++ r.content ++ "\n\n")))

/-- `DebateSession::build_round_messages(round_num)`; the per-message
`Uuid::new_v4()` message ids are supplied by `msgId`. `none` models the
panic that `critique_prompt` can raise for `round_num ≠ 1`. -/
def DebateSession.build_round_messages (s : DebateSession) (round_num : Nat)
    (msgId : Nat → String) : Option (List (String × Message)) :=
  let prompt? :=
    if round_num = 1 then some s.round1_prompt else s.critique_prompt round_num
  prompt?.map (fun prompt =>
    (s.config.bee_endpoints.enum).map (fun p =>
      (p.2,
        { message_id := some (msgId p.1)
          context_id := some s.id
          task_id := none
          role := Role.User
          parts := [Part.mkText prompt]
          metadata := some
            [("debate_round", MetaValue.nat round_num),
             ("bee_index", MetaValue.nat p.1),
             ("debate_session_id", MetaValue.str s.id)] })))

-- ─── Recording a round ───────────────────────────────────────

/-- `DebateSession::record_round(round_number, prompt, responses)`.
The stored analysis uses the canonical iteration order (the hash-map
order only permutes the two point lists; the state transition depends
only on `consensus_reached`, which is order-independent). -/
def DebateSession.record_round (s : DebateSession) (round_number : Nat)
    (prompt : String) (responses : List BeeResponse) : DebateSession :=
  let consensus := analyzeConsensus responses s.config.consensus_threshold
  let concluded :=
    consensus.consensus_reached || decide (round_number ≥ s.config.max_rounds)
  let rounds :=
    s.rounds ++ [{ round_number := round_number
                   prompt := prompt
                   responses := responses
                   consensus := some consensus : DebateRound }]
  let state :=
    if concluded then
      (match rounds.getLast? with
       | some r =>
           match r.consensus with
           | some c => if c.consensus_reached then DebateState.Concluded
                       else DebateState.Exhausted
           | none => DebateState.Exhausted
       | none => DebateState.Exhausted)
    else DebateState.Analyzing
  { s with rounds := rounds, current_round := round_number, state := state }

-- ─── Task / JSON-RPC data model (src/a2a/types.rs, handler.rs) ──

/-- Modelled from the spec: task lifecycle states (`TaskState` in
`src/a2a/types.rs`); Completed, Failed and Canceled are the terminal
states, the "…" of the spec's enum is represented by the non-terminal
`Submitted` and `InputRequired`. -/
inductive TaskState where
  | Submitted
  | Working
  | InputRequired
  | Completed
  | Failed
  | Canceled
deriving DecidableEq, Repr

/-- Rust `{:?}` rendering of a `TaskState`, used in the
cancel-on-terminal error message. -/
def TaskState.debugRepr : TaskState → String
  | .Submitted => "Submitted"
  | .Working => "Working"
  | .InputRequired => "InputRequired"
  | .Completed => "Completed"
  | .Failed => "Failed"
  | .Canceled => "Canceled"

/-- The cancel handler's terminal-state test: the match arm
`Completed | Failed | Canceled` of `handle_cancel_task`. -/
def TaskState.isTerminal : TaskState → Bool
  | .Completed | .Failed | .Canceled => true
  | _ => false

/-- Modelled from the spec: a task's status (`TaskStatus` in
`src/a2a/types.rs`): state, optional last status message, timestamp. -/
structure TaskStatus where
  state : TaskState
  message : Option Message
  timestamp : Option String
deriving DecidableEq, Repr

/-- Modelled from the spec: a `Task` (`src/a2a/types.rs`). Artifacts are
ordered but unused in this scope, so their element type is left as
`Unit`. -/
structure Task where
  id : String
  context_id : Option String
  status : TaskStatus
  artifacts : List Unit
  history : List Message
  metadata : Option (List (String × MetaValue))
deriving DecidableEq, Repr

/-- A JSON-RPC request/response id (`serde_json::Value`; ids in practice
are numbers, strings or null). -/
inductive JsonId where
  | num (n : Int)
  | str (s : String)
  | null
deriving DecidableEq, Repr

/-- Modelled from the spec: the JSON-RPC error codes of
`error_codes` in `src/a2a/types.rs` — the standard reserved range for
protocol errors and a domain range below it (the task-not-found value
is pinned by the repository's tests). -/
def METHOD_NOT_FOUND : Int := -32601

/-- Modelled from the spec: standard JSON-RPC invalid-params code. -/
def INVALID_PARAMS : Int := -32602

/-- Modelled from the spec: domain code for a missing task (the
repository's tests assert `-32001`). -/
def TASK_NOT_FOUND : Int := -32001

/-- Modelled from the spec: domain code for cancelling a terminal
task. -/
def UNSUPPORTED_OPERATION : Int := -32002

/-- A JSON-RPC error object. -/
structure JsonRpcError where
  code : Int
  message : String
deriving DecidableEq, Repr

/-- Modelled from the spec: a JSON-RPC response carries exactly one of a
result or an error, echoing the request id; every successful result of
the three handlers is a serialized `Task`. -/
structure JsonRpcResponse where
  id : JsonId
  result : Option Task
  error : Option JsonRpcError
deriving DecidableEq, Repr

/-- `JsonRpcResponse::success(id, task)`. -/
def JsonRpcResponse.success (id : JsonId) (t : Task) : JsonRpcResponse :=
  ⟨id, some t, none⟩

/-- `JsonRpcResponse::error(id, code, message)` (named `failure` because
Lean does not allow a definition to shadow the `error` field
accessor). -/
def JsonRpcResponse.failure (id : JsonId) (code : Int) (message : String) :
    JsonRpcResponse :=
  ⟨id, none, some ⟨code, message⟩⟩

/-- `SendMessageParams` — params of `message/send`. -/
structure SendMessageParams where
  message : Message
deriving DecidableEq, Repr

/-- `GetTaskParams` — params of `tasks/get`. -/
structure GetTaskParams where
  id : String
deriving DecidableEq, Repr

/-- `CancelTaskParams` — params of `tasks/cancel`. -/
structure CancelTaskParams where
  id : String
deriving DecidableEq, Repr

/-- The raw `params` JSON of a request, classified by shape:
a `{"message": …}` object, an `{"id": …}` object (the common shape of
`GetTaskParams` and `CancelTaskParams`), or anything else. This models
the outcome of `serde_json::from_value` in each handler. -/
inductive RawParams where
  | send (message : Message)
  | taskId (id : String)
  | malformed
deriving DecidableEq, Repr

/-- `serde_json::from_value::<SendMessageParams>` on the raw params. -/
def parseSend : RawParams → Option SendMessageParams
  | .send m => some ⟨m⟩
  | _ => none

/-- `serde_json::from_value::<GetTaskParams>` on the raw params. -/
def parseGet : RawParams → Option GetTaskParams
  | .taskId i => some ⟨i⟩
  | _ => none

/-- `serde_json::from_value::<CancelTaskParams>` on the raw params. -/
def parseCancel : RawParams → Option CancelTaskParams
  | .taskId i => some ⟨i⟩
  | _ => none

/-- A JSON-RPC request (`JsonRpcRequest`). -/
structure JsonRpcRequest where
  jsonrpc : String
  method : String
  params : RawParams
  id : JsonId
deriving DecidableEq, Repr

/-- The in-memory task store `Arc<RwLock<HashMap<String, Task>>>`,
modelled as the map it guards. -/
def TaskStore : Type := String → Option Task

/-- `new_task_store()`. -/
def new_task_store : TaskStore := fun _ => none

/-- `HashMap::insert` (also models the in-place `get_mut` update of the
cancel handler). -/
def TaskStore.insert (k : String) (v : Task) (s : TaskStore) : TaskStore :=
  fun k' => if k' = k then some v else s k'

/-- The fresh impure values a handler draws (`Uuid::new_v4()` for the
task / default context / status-message ids, `chrono::Utc::now()` for
timestamps), passed explicitly. -/
structure Fresh where
  task_id : String
  context_id : String
  message_id : String
  now : String
deriving DecidableEq, Repr

-- ─── Handlers (src/a2a/handler.rs) ───────────────────────────

/-- `str::floor_char_boundary(budget)`-based truncation: the longest
prefix (in characters) whose UTF-8 byte size stays within `budget`. -/
def takeUtf8Floor : List Char → Nat → List Char
  | [], _ => []
  | c :: rest, budget =>
      if c.utf8Size ≤ budget then c :: takeUtf8Floor rest (budget - c.utf8Size)
      else []

/-- The echo text of the status message built by `handle_send_message`:
`user_text` truncated to the 100-byte floor char boundary with an
ellipsis when longer than 100 bytes. -/
def echoText (user_text : String) : String :=
  if user_text.utf8ByteSize > 100 then
    String.mk (takeUtf8Floor user_text.toList 100) ++ "..."
  else user_text

/-- `handle_send_message(id, params, store)`; the serde error detail in
the invalid-params message is abstracted to the fixed prefix. Returns
the response together with the store after the call. -/
def handle_send_message (id : JsonId) (params : RawParams)
    (store : TaskStore) (fresh : Fresh) : JsonRpcResponse × TaskStore :=
  match parseSend params with
  | none => (JsonRpcResponse.failure id INVALID_PARAMS "Invalid params", store)
  | some send_params =>
    let user_text :=
      String.intercalate "\n" (send_params.message.parts.filterMap (·.text))
    let task_id := fresh.task_id
    let context_id := (send_params.message.context_id).getD fresh.context_id
    let task : Task :=
      { id := task_id
        context_id := some context_id
        status :=
          { state := TaskState.Working
            message := some
              { message_id := some fresh.message_id
                context_id := some context_id
                task_id := some task_id
                role := Role.Agent
                parts :=
                  [Part.mkText ("Task created. Processing: " ++ echoText user_text)]
                metadata := none }
            timestamp := some fresh.now }
        artifacts := []
        history := [send_params.message]
        metadata := none }
    (JsonRpcResponse.success id task, TaskStore.insert task_id task store)

/-- `handle_get_task(id, params, store)`. -/
def handle_get_task (id : JsonId) (params : RawParams) (store : TaskStore) :
    JsonRpcResponse × TaskStore :=
  match parseGet params with
  | none => (JsonRpcResponse.failure id INVALID_PARAMS "Invalid params", store)
  | some get_params =>
    match store get_params.id with
    | some task => (JsonRpcResponse.success id task, store)
    | none =>
        (JsonRpcResponse.failure id TASK_NOT_FOUND
          ("Task not found: " ++ get_params.id), store)

/-- `handle_cancel_task(id, params, store)`: rejects terminal states,
otherwise sets `Canceled` and refreshes the timestamp in place. -/
def handle_cancel_task (id : JsonId) (params : RawParams)
    (store : TaskStore) (fresh : Fresh) : JsonRpcResponse × TaskStore :=
  match parseCancel params with
  | none => (JsonRpcResponse.failure id INVALID_PARAMS "Invalid params", store)
  | some cancel_params =>
    match store cancel_params.id with
    | some task =>
        if task.status.state.isTerminal then
          (JsonRpcResponse.failure id UNSUPPORTED_OPERATION
            ("Cannot cancel task in " ++ task.status.state.debugRepr ++ " state"),
           store)
        else
          let task' :=
            { task with status :=
                { task.status with
                    state := TaskState.Canceled
                    timestamp := some fresh.now } }
          (JsonRpcResponse.success id task',
           TaskStore.insert cancel_params.id task' store)
    | none =>
        (JsonRpcResponse.failure id TASK_NOT_FOUND
          ("Task not found: " ++ cancel_params.id), store)

/-- `dispatch(req, store)`: route by method name; unknown methods yield
`METHOD_NOT_FOUND` echoing the request id. -/
def dispatch (req : JsonRpcRequest) (store : TaskStore) (fresh : Fresh) :
    JsonRpcResponse × TaskStore :=
  if req.method = "message/send" then
    handle_send_message req.id req.params store fresh
  else if req.method = "tasks/get" then
    handle_get_task req.id req.params store
  else if req.method = "tasks/cancel" then
    handle_cancel_task req.id req.params store fresh
  else
    (JsonRpcResponse.failure req.id METHOD_NOT_FOUND
      ("Method not found: " ++ req.method), store)

-- ─── Concrete fixtures (used to instantiate the theorems) ────

/-- Three Bees all answering "pro" with high confidence (mirrors the
repository's `test_consensus_analysis_agreement` fixture). -/
def rsAgree : List BeeResponse :=
  [⟨"bee-1", "http://bee-1:18789", "Yes, essential.", 9/10, some "pro", []⟩,
   ⟨"bee-2", "http://bee-2:18789", "Strongly agree.", 85/100, some "Pro", []⟩,
   ⟨"bee-3", "http://bee-3:18789", "Yes, with care.", 8/10, some "pro", []⟩]

/-- A pro/con split (mirrors `test_consensus_analysis_contention`). -/
def rsSplit : List BeeResponse :=
  [⟨"bee-1", "http://bee-1:18789", "Yes to memory.", 9/10, some "pro", []⟩,
   ⟨"bee-2", "http://bee-2:18789", "No, too risky.", 7/10, some "con", []⟩]

/-- A single high-confidence response that carries no position. -/
def rsNoPos : List BeeResponse :=
  [⟨"bee-1", "http://bee-1:18789", "Analysis.", 99/100, none, []⟩]

/-- A three-Bee debate configuration. -/
def cfgFix : DebateConfig :=
  ⟨"Should AI agents have persistent memory?", 3, 3, 8/10,
   ["ctx-1", "ctx-2"], ["http://bee-1", "http://bee-2", "http://bee-3"]⟩

/-- A fresh session over `cfgFix`. -/
def sessFix : DebateSession := DebateSession.new "sess-1" cfgFix

/-- `sessFix` after one non-concluding round. -/
def sessOneRound : DebateSession := sessFix.record_round 1 "prompt-1" rsSplit

/-- Concrete fresh values for handler calls. -/
def freshFix : Fresh := ⟨"task-1", "ctx-1", "msg-1", "2026-10-12T00:00:00Z"⟩

/-- A user message as submitted through `message/send`. -/
def msgFix : Message :=
  ⟨some "msg-0", none, none, Role.User, [Part.mkText "Hello, agent!"], none⟩

/-- A stored task in the `Working` state, cancellable. -/
def taskWorking : Task :=
  { id := "task-0"
    context_id := some "ctx-0"
    status := { state := TaskState.Working, message := none,
                timestamp := some "2026-10-11T00:00:00Z" }
    artifacts := []
    history := [msgFix]
    metadata := none }

/-- A store holding exactly `taskWorking` under `"task-0"`. -/
def storeFix : TaskStore := TaskStore.insert "task-0" taskWorking new_task_store

-- ─── Derived predicates used by the verification ─────────────

/-- First-match lookup of a count in the association-list view of the
`position_counts` map. -/
def lookupCount : List (String × Nat) → String → Nat
  | [], _ => 0
  | (k, c) :: rest, key => if k = key then c else lookupCount rest key

/-- The predicate "response `r` belongs to the group keyed by `key`":
its position, lowercased, is exactly `key`. -/
def inGroup (key : String) (r : BeeResponse) : Bool :=
  match r.position with
  | some pos => strToLower pos = key
  | none => false

/-- The debate sessions reachable through the documented call
discipline: created by `DebateSession::new` and mutated only by
`record_round` calls passing `round_number = current_round + 1` (the
monotonic numbering the spec requires callers to enforce). -/
inductive ReachableSession : DebateSession → Prop where
  | init (id : String) (config : DebateConfig) :
      ReachableSession (DebateSession.new id config)
  | record (s : DebateSession) (prompt : String)
      (responses : List BeeResponse) :
      ReachableSession s →
      ReachableSession (s.record_round (s.current_round + 1) prompt responses)

/-- The in-place mutation the cancel handler applies through `get_mut`:
state set to `Canceled`, timestamp refreshed. -/
def cancelUpdate (task : Task) (now : String) : Task :=
  { task with status :=
      { task.status with
          state := TaskState.Canceled
          timestamp := some now } }

/-- A request with an unrecognized method. -/
def reqUnknown : JsonRpcRequest :=
  ⟨"2.0", "unknown/method", RawParams.malformed, JsonId.num 99⟩

/-- A `message/send` request whose params do not parse as
`SendMessageParams`. -/
def reqBadSend : JsonRpcRequest :=
  ⟨"2.0", "message/send", RawParams.taskId "x", JsonId.num 1⟩

/-- A `tasks/get` request whose params do not parse as
`GetTaskParams`. -/
def reqBadGet : JsonRpcRequest :=
  ⟨"2.0", "tasks/get", RawParams.malformed, JsonId.num 2⟩

/-- A `tasks/cancel` request whose params do not parse as
`CancelTaskParams`. -/
def reqBadCancel : JsonRpcRequest :=
  ⟨"2.0", "tasks/cancel", RawParams.send msgFix, JsonId.num 3⟩

-- ─── Helper lemmas on the position-counting fold ─────────────

theorem lookupCount_bumpCount (acc : List (String × Nat)) (key k : String) :
    lookupCount (bumpCount acc key) k =
      lookupCount acc k + (if key = k then 1 else 0) := by
  induction acc with
  | nil =>
      by_cases h : key = k <;> simp [bumpCount, lookupCount, h]
  | cons p rest ih =>
      obtain ⟨pk, pc⟩ := p
      by_cases hpk : pk = key
      · subst hpk
        by_cases h : pk = k <;> simp [bumpCount, lookupCount, h]
      · by_cases h : pk = k
        · subst h
          have : ¬ key = pk := fun hh => hpk hh.symm
          simp [bumpCount, lookupCount, hpk, this]
        · simp [bumpCount, lookupCount, hpk, h, ih]

theorem lookupCount_foldl (rs : List BeeResponse)
    (acc : List (String × Nat)) (k : String) :
    lookupCount
      (rs.foldl (fun acc r =>
        match r.position with
        | some pos => bumpCount acc (strToLower pos)
        | none => acc) acc) k
      = lookupCount acc k + rs.countP (inGroup k) := by
  induction rs generalizing acc with
  | nil => simp
  | cons r rest ih =>
      cases hpos : r.position with
      | none =>
          simp only [List.foldl_cons, hpos]
          rw [ih]
          have : inGroup k r = false := by simp [inGroup, hpos]
          rw [List.countP_cons, this]
          simp
      | some pos =>
          simp only [List.foldl_cons, hpos]
          rw [ih, lookupCount_bumpCount]
          have : inGroup k r = decide (strToLower pos = k) := by
            simp [inGroup, hpos]
          rw [List.countP_cons, this]
          by_cases h : strToLower pos = k
          · simp [h]; omega
          · simp [h]

/-- The count stored for each key of `position_counts` is exactly the
number of responses whose lowercased position is that key. -/
theorem lookupCount_positionCounts (rs : List BeeResponse) (k : String) :
    lookupCount (positionCounts rs) k = rs.countP (inGroup k) := by
  have := lookupCount_foldl rs [] k
  simpa [positionCounts, lookupCount] using this

theorem keys_bumpCount (acc : List (String × Nat)) (key : String) :
    (bumpCount acc key).map Prod.fst =
      if key ∈ acc.map Prod.fst then acc.map Prod.fst
      else acc.map Prod.fst ++ [key] := by
  induction acc with
  | nil => simp [bumpCount]
  | cons p rest ih =>
      obtain ⟨pk, pc⟩ := p
      by_cases h : pk = key
      · subst h; simp [bumpCount]
      · have h' : ¬ key = pk := fun hh => h hh.symm
        by_cases hmem : key ∈ rest.map Prod.fst <;>
          simp [bumpCount, h, h', hmem, ih]

theorem nodup_keys_bumpCount (acc : List (String × Nat)) (key : String)
    (h : (acc.map Prod.fst).Nodup) : ((bumpCount acc key).map Prod.fst).Nodup := by
  rw [keys_bumpCount]
  by_cases hmem : key ∈ acc.map Prod.fst
  · simpa [hmem] using h
  · simpa [hmem, List.nodup_append] using h

/-- `position_counts` holds exactly one entry per distinct key. -/
theorem positionCounts_keys_nodup (rs : List BeeResponse) :
    ((positionCounts rs).map Prod.fst).Nodup := by
  suffices h : ∀ acc : List (String × Nat), (acc.map Prod.fst).Nodup →
      ((rs.foldl (fun acc r =>
        match r.position with
        | some pos => bumpCount acc (strToLower pos)
        | none => acc) acc).map Prod.fst).Nodup by
    exact h [] (by simp)
  induction rs with
  | nil => intro acc hacc; simpa using hacc
  | cons r rest ih =>
      intro acc hacc
      cases hpos : r.position with
      | none => simp only [List.foldl_cons, hpos]; exact ih acc hacc
      | some pos =>
          simp only [List.foldl_cons, hpos]
          exact ih _ (nodup_keys_bumpCount acc (strToLower pos) hacc)

-- ─── C1: record_round state transition ───────────────────────

/-- C1: after `record_round(round_number, prompt, responses)` the
session state is `Concluded` exactly when the just-recorded round's
analysis reaches consensus, `Exhausted` when it does not and
`round_number` has reached `max_rounds`, and `Analyzing` otherwise.
The right-hand side mentions only the just-recorded responses, the
configured threshold, `round_number` and `max_rounds`, so the decision
is independent of every earlier round's analysis. -/
theorem record_round_state_transition (s : DebateSession) (round_number : Nat)
    (prompt : String) (responses : List BeeResponse) :
    (s.record_round round_number prompt responses).state =
      (if (analyzeConsensus responses s.config.consensus_threshold).consensus_reached
       then DebateState.Concluded
       else if round_number ≥ s.config.max_rounds then DebateState.Exhausted
       else DebateState.Analyzing) := by
  unfold DebateSession.record_round
  cases hc : (analyzeConsensus responses s.config.consensus_threshold).consensus_reached
  · by_cases hm : round_number ≥ s.config.max_rounds <;> simp [hc, hm]
  · simp [hc]

-- ─── C2: the consensus analyzer ──────────────────────────────

/-- C2: for every response list and threshold (and every hash-map
iteration order, which is some permutation of the group entries),
`analyze_consensus` returns the arithmetic mean of the confidences
(`0` on the empty list); one rendered
`"<position> (<count>/<total> agree)"` entry per position group with
`count/total ≥ threshold` in `agreement_points` and per group with
`0 < count/total < threshold` in `contention_points`, where the groups
are keyed by the lowercased position, each key appears once, its count
is the number of responses in that group, and `total` is the length of
the response list; empty `blind_spots`; and `consensus_reached` exactly
when the mean reaches the threshold and `agreement_points` is
non-empty. -/
theorem analyze_consensus_spec (responses : List BeeResponse) (threshold : ℚ)
    (order : List (String × Nat))
    (hord : order.Perm (positionCounts responses)) :
    (analyzeConsensusWith order responses threshold).avg_confidence =
      (if responses = [] then 0
       else (responses.map (·.confidence)).sum / (responses.length : ℚ)) ∧
    (analyzeConsensusWith order responses threshold).agreement_points.Perm
      (((positionCounts responses).filter (fun p =>
          decide ((p.2 : ℚ) / (responses.length : ℚ) ≥ threshold))).map
        (renderPoint responses.length)) ∧
    (analyzeConsensusWith order responses threshold).contention_points.Perm
      (((positionCounts responses).filter (fun p =>
          decide (0 < (p.2 : ℚ) / (responses.length : ℚ) ∧
            (p.2 : ℚ) / (responses.length : ℚ) < threshold))).map
        (renderPoint responses.length)) ∧
    (∀ k, lookupCount (positionCounts responses) k =
       responses.countP (inGroup k)) ∧
    ((positionCounts responses).map Prod.fst).Nodup ∧
    (analyzeConsensusWith order responses threshold).blind_spots = [] ∧
    ((analyzeConsensusWith order responses threshold).consensus_reached = true ↔
      ((analyzeConsensusWith order responses threshold).avg_confidence ≥ threshold ∧
       (analyzeConsensusWith order responses threshold).agreement_points ≠ [])) := by
  refine ⟨?_, ?_, ?_, lookupCount_positionCounts responses,
    positionCounts_keys_nodup responses, rfl, ?_⟩
  · simp only [analyzeConsensusWith]
    by_cases h : responses = [] <;> simp [h]
  · exact (hord.filter _).map _
  · exact (hord.filter _).map _
  · simp only [analyzeConsensusWith]
    simp [Bool.and_eq_true, decide_eq_true_iff, List.isEmpty_iff,
      Bool.not_eq_true']

/-- Witness for C2 at the three-pro fixture with threshold `0.8` and
the canonical iteration order. -/
theorem analyze_consensus_spec_witness :
    (positionCounts rsAgree).Perm (positionCounts rsAgree) ∧
    ((analyzeConsensusWith (positionCounts rsAgree) rsAgree (8/10)).avg_confidence =
      (if rsAgree = [] then 0
       else (rsAgree.map (·.confidence)).sum / (rsAgree.length : ℚ)) ∧
    (analyzeConsensusWith (positionCounts rsAgree) rsAgree (8/10)).agreement_points.Perm
      (((positionCounts rsAgree).filter (fun p =>
          decide ((p.2 : ℚ) / (rsAgree.length : ℚ) ≥ (8/10 : ℚ)))).map
        (renderPoint rsAgree.length)) ∧
    (analyzeConsensusWith (positionCounts rsAgree) rsAgree (8/10)).contention_points.Perm
      (((positionCounts rsAgree).filter (fun p =>
          decide (0 < (p.2 : ℚ) / (rsAgree.length : ℚ) ∧
            (p.2 : ℚ) / (rsAgree.length : ℚ) < (8/10 : ℚ)))).map
        (renderPoint rsAgree.length)) ∧
    (∀ k, lookupCount (positionCounts rsAgree) k =
       rsAgree.countP (inGroup k)) ∧
    ((positionCounts rsAgree).map Prod.fst).Nodup ∧
    (analyzeConsensusWith (positionCounts rsAgree) rsAgree (8/10)).blind_spots = [] ∧
    ((analyzeConsensusWith (positionCounts rsAgree) rsAgree (8/10)).consensus_reached = true ↔
      ((analyzeConsensusWith (positionCounts rsAgree) rsAgree (8/10)).avg_confidence ≥ (8/10 : ℚ) ∧
       (analyzeConsensusWith (positionCounts rsAgree) rsAgree (8/10)).agreement_points ≠ []))) :=
  ⟨List.Perm.refl _,
   analyze_consensus_spec rsAgree (8/10) (positionCounts rsAgree) (List.Perm.refl _)⟩

-- ─── C3: determinism of the analyzer ─────────────────────────

/-- C3 counterexample: `analyze_consensus` iterates a freshly built
`HashMap` whose iteration order is unspecified (seeded per instance),
so two invocations on equal inputs may visit the two position groups of
`rsSplit` in opposite orders and return `contention_points` lists in
different orders — the results are *not* equal `ConsensusAnalysis`
values. -/
theorem analyze_consensus_order_counterexample :
    ([("con", 1), ("pro", 1)] : List (String × Nat)).Perm
      (positionCounts rsSplit) ∧
    ([("pro", 1), ("con", 1)] : List (String × Nat)).Perm
      (positionCounts rsSplit) ∧
    analyzeConsensusWith [("con", 1), ("pro", 1)] rsSplit (8/10) ≠
      analyzeConsensusWith [("pro", 1), ("con", 1)] rsSplit (8/10) := by
  refine ⟨by decide, by decide, ?_⟩
  have e1 : (analyzeConsensusWith [("con", 1), ("pro", 1)] rsSplit
      (8/10)).contention_points = ["con (1/2 agree)", "pro (1/2 agree)"] := by
    simp only [analyzeConsensusWith, rsSplit]
    norm_num [List.filter_cons, renderPoint]
    constructor <;> decide
  have e2 : (analyzeConsensusWith [("pro", 1), ("con", 1)] rsSplit
      (8/10)).contention_points = ["pro (1/2 agree)", "con (1/2 agree)"] := by
    simp only [analyzeConsensusWith, rsSplit]
    norm_num [List.filter_cons, renderPoint]
    constructor <;> decide
  intro h
  have hc := congrArg ConsensusAnalysis.contention_points h
  rw [e1, e2] at hc
  exact absurd hc (by decide)

/-- C3 amended: `analyze_consensus` is deterministic up to the
hash-map iteration order — two invocations on equal inputs agree on
`avg_confidence`, `blind_spots` and `consensus_reached`, and their
`agreement_points` and `contention_points` lists hold the same entries
up to permutation. -/
theorem analyze_consensus_deterministic_up_to_order
    (responses : List BeeResponse) (threshold : ℚ)
    (o1 o2 : List (String × Nat))
    (h1 : o1.Perm (positionCounts responses))
    (h2 : o2.Perm (positionCounts responses)) :
    (analyzeConsensusWith o1 responses threshold).avg_confidence =
      (analyzeConsensusWith o2 responses threshold).avg_confidence ∧
    (analyzeConsensusWith o1 responses threshold).agreement_points.Perm
      (analyzeConsensusWith o2 responses threshold).agreement_points ∧
    (analyzeConsensusWith o1 responses threshold).contention_points.Perm
      (analyzeConsensusWith o2 responses threshold).contention_points ∧
    (analyzeConsensusWith o1 responses threshold).blind_spots =
      (analyzeConsensusWith o2 responses threshold).blind_spots ∧
    (analyzeConsensusWith o1 responses threshold).consensus_reached =
      (analyzeConsensusWith o2 responses threshold).consensus_reached := by
  have hperm : o1.Perm o2 := h1.trans h2.symm
  have hag : (analyzeConsensusWith o1 responses threshold).agreement_points.Perm
      (analyzeConsensusWith o2 responses threshold).agreement_points :=
    (hperm.filter _).map _
  have hempty : (analyzeConsensusWith o1 responses threshold).agreement_points.isEmpty
      = (analyzeConsensusWith o2 responses threshold).agreement_points.isEmpty := by
    rw [Bool.eq_iff_iff]
    simp only [List.isEmpty_iff]
    constructor
    · intro h'; exact ((h' ▸ hag)).symm.eq_nil
    · intro h'; exact (h' ▸ hag.symm).symm.eq_nil
  have havg : (analyzeConsensusWith o1 responses threshold).avg_confidence =
      (analyzeConsensusWith o2 responses threshold).avg_confidence := rfl
  refine ⟨havg, hag, (hperm.filter _).map _, rfl, ?_⟩
  show (decide ((analyzeConsensusWith o1 responses threshold).avg_confidence ≥ threshold)
        && !(analyzeConsensusWith o1 responses threshold).agreement_points.isEmpty)
      = (decide ((analyzeConsensusWith o2 responses threshold).avg_confidence ≥ threshold)
        && !(analyzeConsensusWith o2 responses threshold).agreement_points.isEmpty)
  rw [havg, hempty]

/-- Witness for the amended C3 at the split fixture with the two
opposite iteration orders. -/
theorem analyze_consensus_deterministic_up_to_order_witness :
    ([("con", 1), ("pro", 1)] : List (String × Nat)).Perm
      (positionCounts rsSplit) ∧
    ([("pro", 1), ("con", 1)] : List (String × Nat)).Perm
      (positionCounts rsSplit) ∧
    ((analyzeConsensusWith [("con", 1), ("pro", 1)] rsSplit (8/10)).avg_confidence =
      (analyzeConsensusWith [("pro", 1), ("con", 1)] rsSplit (8/10)).avg_confidence ∧
    (analyzeConsensusWith [("con", 1), ("pro", 1)] rsSplit (8/10)).agreement_points.Perm
      (analyzeConsensusWith [("pro", 1), ("con", 1)] rsSplit (8/10)).agreement_points ∧
    (analyzeConsensusWith [("con", 1), ("pro", 1)] rsSplit (8/10)).contention_points.Perm
      (analyzeConsensusWith [("pro", 1), ("con", 1)] rsSplit (8/10)).contention_points ∧
    (analyzeConsensusWith [("con", 1), ("pro", 1)] rsSplit (8/10)).blind_spots =
      (analyzeConsensusWith [("pro", 1), ("con", 1)] rsSplit (8/10)).blind_spots ∧
    (analyzeConsensusWith [("con", 1), ("pro", 1)] rsSplit (8/10)).consensus_reached =
      (analyzeConsensusWith [("pro", 1), ("con", 1)] rsSplit (8/10)).consensus_reached) :=
  ⟨by decide, by decide,
   analyze_consensus_deterministic_up_to_order rsSplit (8/10)
     [("con", 1), ("pro", 1)] [("pro", 1), ("con", 1)] (by decide) (by decide)⟩

end OpenCrabs

namespace OpenCrabs

-- ─── C4: round-history invariant under the call discipline ───

/-- C4: for every session created by `DebateSession::new` and mutated
only by `record_round` calls passing `round_number = current_round + 1`,
the recorded history satisfies `rounds.length = current_round` and the
stored `round_number` values are exactly `1, 2, …, current_round` — in
particular strictly increasing starting from 1. -/
theorem reachable_rounds_invariant (s : DebateSession)
    (h : ReachableSession s) :
    s.rounds.length = s.current_round ∧
    s.rounds.map (fun r => r.round_number) =
      List.range' 1 s.current_round := by
  induction h with
  | init id config => simp [DebateSession.new]
  | record s prompt responses _ ih =>
      obtain ⟨h1, h2⟩ := ih
      unfold DebateSession.record_round
      refine ⟨by simp [h1], ?_⟩
      simp only [List.map_append, h2, List.map_cons, List.map_nil]
      rw [List.range'_concat]
      simp [Nat.add_comm]

/-- Witness for C4: a fresh session after one discipline-respecting
`record_round` call satisfies the invariant. -/
theorem reachable_rounds_invariant_witness :
    ReachableSession sessOneRound ∧
    (sessOneRound.rounds.length = sessOneRound.current_round ∧
     sessOneRound.rounds.map (fun r => r.round_number) =
       List.range' 1 sessOneRound.current_round) :=
  have hr : ReachableSession sessOneRound :=
    ReachableSession.record sessFix "prompt-1" rsSplit
      (ReachableSession.init "sess-1" cfgFix)
  ⟨hr, reachable_rounds_invariant sessOneRound hr⟩

-- ─── C9: critique_prompt panic precondition ──────────────────

/-- C9: `critique_prompt(k)` indexes `rounds[k - 2]` without a guard:
it completes (does not panic) exactly when `k ≥ 2` and at least `k - 1`
rounds are recorded (`k = 0` and `k = 1` underflow the `usize`
subtraction, and fewer rounds index out of bounds);
`build_round_messages(n)` inherits exactly this precondition for every
`n ≠ 1`. -/
theorem critique_prompt_panic_precondition (s : DebateSession) :
    (∀ k, (s.critique_prompt k).isSome ↔
      (2 ≤ k ∧ k - 1 ≤ s.rounds.length)) ∧
    (∀ n, n ≠ 1 → ∀ msgId, (s.build_round_messages n msgId).isSome ↔
      (2 ≤ n ∧ n - 1 ≤ s.rounds.length)) := by
  have hcp : ∀ k, (s.critique_prompt k).isSome ↔
      (2 ≤ k ∧ k - 1 ≤ s.rounds.length) := by
    intro k
    unfold DebateSession.critique_prompt
    by_cases h : k < 2
    · simp only [if_pos h, Option.isSome_none, Bool.false_eq_true, false_iff]
      omega
    · simp only [if_neg h, Option.isSome_map']
      rw [Option.isSome_iff_ne_none]
      simp only [ne_eq, List.get?_eq_getElem?, List.getElem?_eq_none_iff]
      omega
  refine ⟨hcp, ?_⟩
  intro n hn msgId
  unfold DebateSession.build_round_messages
  simp only [if_neg hn, Option.isSome_map']
  exact hcp n

/-- Witness for C9: on a session holding one recorded round,
`build_round_messages 2` completes while round number 2 requires at
least one recorded round. -/
theorem critique_prompt_panic_precondition_witness :
    (2 : Nat) ≠ 1 ∧
    ((sessOneRound.build_round_messages 2 (fun _ => "mid")).isSome ↔
      (2 ≤ 2 ∧ 2 - 1 ≤ sessOneRound.rounds.length)) :=
  ⟨by decide,
   (critique_prompt_panic_precondition sessOneRound).2 2 (by decide)
     (fun _ => "mid")⟩

end OpenCrabs

namespace OpenCrabs

-- ─── C10: positionless responses dilute the denominator ──────

theorem positionCounts_eq_nil_of_no_position (responses : List BeeResponse)
    (hpos : ∀ r ∈ responses, r.position = none) :
    positionCounts responses = [] := by
  have aux : ∀ (rs : List BeeResponse) (acc : List (String × Nat)),
      (∀ r ∈ rs, r.position = none) →
      rs.foldl (fun acc r =>
        match r.position with
        | some pos => bumpCount acc (strToLower pos)
        | none => acc) acc = acc := by
    intro rs
    induction rs with
    | nil => intro acc _; rfl
    | cons r rest ih =>
        intro acc hall
        have hr : r.position = none := hall r (List.mem_cons_self r rest)
        simp only [List.foldl_cons, hr]
        exact ih acc (fun x hx => hall x (List.mem_cons_of_mem r hx))
  exact aux responses [] hpos

/-- C10: a response with `position = None` counts towards the grouping
denominator (`total = responses.len()`) but joins no group; hence on any
non-empty response list in which no response carries a position,
`agreement_points` and `contention_points` are empty and
`consensus_reached` is `false` — for every threshold and however high
the confidences are. -/
theorem no_position_no_consensus (responses : List BeeResponse)
    (threshold : ℚ) (order : List (String × Nat))
    (hord : order.Perm (positionCounts responses))
    (_hne : responses ≠ []) (hpos : ∀ r ∈ responses, r.position = none) :
    (analyzeConsensusWith order responses threshold).agreement_points = [] ∧
    (analyzeConsensusWith order responses threshold).contention_points = [] ∧
    (analyzeConsensusWith order responses threshold).consensus_reached
      = false := by
  have hpc : positionCounts responses = [] :=
    positionCounts_eq_nil_of_no_position responses hpos
  rw [hpc] at hord
  have hord' : order = [] := hord.eq_nil
  subst hord'
  refine ⟨rfl, rfl, ?_⟩
  simp [analyzeConsensusWith]

/-- Witness for C10 at a single positionless response of confidence
`0.99` against the low threshold `0.1`. -/
theorem no_position_no_consensus_witness :
    (positionCounts rsNoPos).Perm (positionCounts rsNoPos) ∧
    rsNoPos ≠ [] ∧ (∀ r ∈ rsNoPos, r.position = none) ∧
    ((analyzeConsensusWith (positionCounts rsNoPos) rsNoPos
        (1/10)).agreement_points = [] ∧
     (analyzeConsensusWith (positionCounts rsNoPos) rsNoPos
        (1/10)).contention_points = [] ∧
     (analyzeConsensusWith (positionCounts rsNoPos) rsNoPos
        (1/10)).consensus_reached = false) :=
  ⟨List.Perm.refl _, by decide, by decide,
   no_position_no_consensus rsNoPos (1/10) (positionCounts rsNoPos)
     (List.Perm.refl _) (by decide) (by decide)⟩

-- ─── C8: message fan-out ─────────────────────────────────────

/-- C8: whenever `build_round_messages(n)` completes, it returns exactly
one `(endpoint, Message)` pair per entry of `config.bee_endpoints`, in
list order; each message carries metadata `debate_round = n`,
`bee_index` equal to its 0-based position, and `debate_session_id` equal
to the session id. The count equals the endpoint-list length — it never
consults `num_bees` — and is 0, with no error, when `bee_endpoints` is
empty (round 1 always completes). -/
theorem build_round_messages_fanout (s : DebateSession) (n : Nat)
    (msgId : Nat → String) (msgs : List (String × Message))
    (h : s.build_round_messages n msgId = some msgs) :
    msgs.length = s.config.bee_endpoints.length ∧
    (∀ i (hi : i < msgs.length),
      s.config.bee_endpoints.get? i = some (msgs.get ⟨i, hi⟩).1 ∧
      ((msgs.get ⟨i, hi⟩).2.metadata.getD []).lookup "debate_round"
        = some (MetaValue.nat n) ∧
      ((msgs.get ⟨i, hi⟩).2.metadata.getD []).lookup "bee_index"
        = some (MetaValue.nat i) ∧
      ((msgs.get ⟨i, hi⟩).2.metadata.getD []).lookup "debate_session_id"
        = some (MetaValue.str s.id)) ∧
    (s.config.bee_endpoints = [] → msgs = []) := by
  unfold DebateSession.build_round_messages at h
  rw [Option.map_eq_some'] at h
  obtain ⟨prompt, -, hmsgs⟩ := h
  subst hmsgs
  refine ⟨by simp, ?_, by intro he; simp [he]⟩
  intro i hi
  simp only [List.length_map, List.enum_length] at hi
  simp only [List.get_eq_getElem, List.getElem_map, List.getElem_enum]
  refine ⟨?_, ?_, ?_, ?_⟩
  · simp [List.get?_eq_getElem?, List.getElem?_eq_some_iff, hi]
  · rfl
  · rfl
  · rfl

/-- Witness for C8: round 1 on the three-endpoint fixture yields three
messages with the claimed metadata. -/
theorem build_round_messages_fanout_witness :
    sessFix.build_round_messages 1 (fun i => toString i) =
      some (Option.get (sessFix.build_round_messages 1 (fun i => toString i))
        (by rfl)) ∧
    (Option.get (sessFix.build_round_messages 1 (fun i => toString i))
        (by rfl)).length = sessFix.config.bee_endpoints.length :=
  have h : sessFix.build_round_messages 1 (fun i => toString i) =
      some (Option.get (sessFix.build_round_messages 1 (fun i => toString i))
        (by rfl)) := (Option.some_get _).symm
  ⟨h, (build_round_messages_fanout sessFix 1 (fun i => toString i) _ h).1⟩

end OpenCrabs

namespace OpenCrabs

-- ─── C5: tasks/cancel ────────────────────────────────────────

/-- C5: cancelling a stored task in a non-terminal state succeeds,
storing it with state `Canceled` and a refreshed timestamp and leaving
every other field intact; a second cancel of the same task — and any
cancel of a task already in a terminal state — returns
`UnsupportedOperation` and leaves the store entirely unchanged;
cancelling an unknown id returns `TaskNotFound`. -/
theorem cancel_task_spec (id : JsonId) (tid : String) (store : TaskStore)
    (fresh : Fresh) :
    (∀ task, store tid = some task → task.status.state.isTerminal = false →
      (handle_cancel_task id (RawParams.taskId tid) store fresh =
        (JsonRpcResponse.success id (cancelUpdate task fresh.now),
         TaskStore.insert tid (cancelUpdate task fresh.now) store) ∧
       (cancelUpdate task fresh.now).status.state = TaskState.Canceled ∧
       (cancelUpdate task fresh.now).status.timestamp = some fresh.now ∧
       (cancelUpdate task fresh.now).id = task.id ∧
       (cancelUpdate task fresh.now).context_id = task.context_id ∧
       (cancelUpdate task fresh.now).history = task.history ∧
       (cancelUpdate task fresh.now).status.message = task.status.message ∧
       handle_cancel_task id (RawParams.taskId tid)
           (TaskStore.insert tid (cancelUpdate task fresh.now) store) fresh =
         (JsonRpcResponse.failure id UNSUPPORTED_OPERATION
           ("Cannot cancel task in " ++ TaskState.Canceled.debugRepr ++ " state"),
          TaskStore.insert tid (cancelUpdate task fresh.now) store))) ∧
    (∀ task, store tid = some task → task.status.state.isTerminal = true →
      handle_cancel_task id (RawParams.taskId tid) store fresh =
        (JsonRpcResponse.failure id UNSUPPORTED_OPERATION
          ("Cannot cancel task in " ++ task.status.state.debugRepr ++ " state"),
         store)) ∧
    (store tid = none →
      handle_cancel_task id (RawParams.taskId tid) store fresh =
        (JsonRpcResponse.failure id TASK_NOT_FOUND
          ("Task not found: " ++ tid), store)) := by
  refine ⟨?_, ?_, ?_⟩
  · intro task hstore hterm
    refine ⟨?_, rfl, rfl, rfl, rfl, rfl, rfl, ?_⟩
    · simp [handle_cancel_task, parseCancel, hstore, hterm, cancelUpdate]
    · have hlook : (TaskStore.insert tid (cancelUpdate task fresh.now) store) tid
          = some (cancelUpdate task fresh.now) := by
        simp [TaskStore.insert]
      simp only [handle_cancel_task, parseCancel]
      rw [hlook]
      simp [cancelUpdate, TaskState.isTerminal, TaskState.debugRepr]
  · intro task hstore hterm
    simp [handle_cancel_task, parseCancel, hstore, hterm]
  · intro hstore
    simp [handle_cancel_task, parseCancel, hstore]

/-- Witness for C5: cancelling the stored `Working` task `"task-0"`
succeeds with state `Canceled` and a refreshed timestamp; the second
cancel is rejected; an unknown id is `TaskNotFound`. -/
theorem cancel_task_spec_witness :
    storeFix "task-0" = some taskWorking ∧
    taskWorking.status.state.isTerminal = false ∧
    (handle_cancel_task (JsonId.num 3) (RawParams.taskId "task-0")
        storeFix freshFix =
      (JsonRpcResponse.success (JsonId.num 3)
          (cancelUpdate taskWorking freshFix.now),
       TaskStore.insert "task-0" (cancelUpdate taskWorking freshFix.now)
         storeFix) ∧
     (cancelUpdate taskWorking freshFix.now).status.state
        = TaskState.Canceled ∧
     (cancelUpdate taskWorking freshFix.now).status.timestamp
        = some freshFix.now ∧
     (cancelUpdate taskWorking freshFix.now).id = taskWorking.id ∧
     (cancelUpdate taskWorking freshFix.now).context_id
        = taskWorking.context_id ∧
     (cancelUpdate taskWorking freshFix.now).history = taskWorking.history ∧
     (cancelUpdate taskWorking freshFix.now).status.message
        = taskWorking.status.message ∧
     handle_cancel_task (JsonId.num 3) (RawParams.taskId "task-0")
         (TaskStore.insert "task-0" (cancelUpdate taskWorking freshFix.now)
           storeFix) freshFix =
       (JsonRpcResponse.failure (JsonId.num 3) UNSUPPORTED_OPERATION
         ("Cannot cancel task in " ++ TaskState.Canceled.debugRepr ++ " state"),
        TaskStore.insert "task-0" (cancelUpdate taskWorking freshFix.now)
          storeFix)) :=
  ⟨by simp [storeFix, TaskStore.insert], by decide,
   (cancel_task_spec (JsonId.num 3) "task-0" storeFix freshFix).1 taskWorking
     (by simp [storeFix, TaskStore.insert]) (by decide)⟩

-- ─── C6: dispatch error paths ────────────────────────────────

/-- C6: dispatching a method other than `message/send`, `tasks/get` and
`tasks/cancel` returns `MethodNotFound` echoing the original request id
and leaves the registry unchanged; for each of the three known methods,
params that fail to parse yield `InvalidParams` with no registry
mutation. -/
theorem dispatch_error_paths (req : JsonRpcRequest) (store : TaskStore)
    (fresh : Fresh) :
    (req.method ∉ (["message/send", "tasks/get", "tasks/cancel"] : List String) →
      dispatch req store fresh =
        (JsonRpcResponse.failure req.id METHOD_NOT_FOUND
          ("Method not found: " ++ req.method), store)) ∧
    (req.method = "message/send" → parseSend req.params = none →
      dispatch req store fresh =
        (JsonRpcResponse.failure req.id INVALID_PARAMS "Invalid params",
         store)) ∧
    (req.method = "tasks/get" → parseGet req.params = none →
      dispatch req store fresh =
        (JsonRpcResponse.failure req.id INVALID_PARAMS "Invalid params",
         store)) ∧
    (req.method = "tasks/cancel" → parseCancel req.params = none →
      dispatch req store fresh =
        (JsonRpcResponse.failure req.id INVALID_PARAMS "Invalid params",
         store)) := by
  refine ⟨?_, ?_, ?_, ?_⟩
  · intro h
    have h1 : req.method ≠ "message/send" := fun he => h (by rw [he]; simp)
    have h2 : req.method ≠ "tasks/get" := fun he => h (by rw [he]; simp)
    have h3 : req.method ≠ "tasks/cancel" := fun he => h (by rw [he]; simp)
    simp [dispatch, h1, h2, h3]
  · intro hm hp
    simp [dispatch, hm, handle_send_message, hp]
  · intro hm hp
    simp [dispatch, hm, handle_get_task, hp]
  · intro hm hp
    simp [dispatch, hm, handle_cancel_task, hp]

/-- Witness for C6 at one concrete request per error path. -/
theorem dispatch_error_paths_witness :
    (reqUnknown.method ∉
      (["message/send", "tasks/get", "tasks/cancel"] : List String)) ∧
    dispatch reqUnknown new_task_store freshFix =
      (JsonRpcResponse.failure reqUnknown.id METHOD_NOT_FOUND
        ("Method not found: " ++ reqUnknown.method), new_task_store) ∧
    parseSend reqBadSend.params = none ∧
    dispatch reqBadSend new_task_store freshFix =
      (JsonRpcResponse.failure reqBadSend.id INVALID_PARAMS "Invalid params",
       new_task_store) ∧
    parseGet reqBadGet.params = none ∧
    dispatch reqBadGet new_task_store freshFix =
      (JsonRpcResponse.failure reqBadGet.id INVALID_PARAMS "Invalid params",
       new_task_store) ∧
    parseCancel reqBadCancel.params = none ∧
    dispatch reqBadCancel new_task_store freshFix =
      (JsonRpcResponse.failure reqBadCancel.id INVALID_PARAMS "Invalid params",
       new_task_store) :=
  ⟨by decide,
   (dispatch_error_paths reqUnknown new_task_store freshFix).1 (by decide),
   by decide,
   (dispatch_error_paths reqBadSend new_task_store freshFix).2.1 rfl rfl,
   by decide,
   (dispatch_error_paths reqBadGet new_task_store freshFix).2.2.1 rfl rfl,
   by decide,
   (dispatch_error_paths reqBadCancel new_task_store freshFix).2.2.2 rfl rfl⟩

-- ─── C7: message/send task creation ──────────────────────────

/-- C7: a well-formed `message/send` returns a task in state `Working`
whose id is the freshly generated one (absent from the store when the
generated uuid is fresh), whose history is exactly the submitted
message, and whose context id is the message's or the fresh default;
the only registry change is the insertion of that single task. -/
theorem send_message_creates_task (id : JsonId) (msg : Message)
    (store : TaskStore) (fresh : Fresh)
    (hfresh : store fresh.task_id = none) :
    ∃ task : Task,
      handle_send_message id (RawParams.send msg) store fresh =
        (JsonRpcResponse.success id task,
         TaskStore.insert fresh.task_id task store) ∧
      task.id = fresh.task_id ∧
      store task.id = none ∧
      task.status.state = TaskState.Working ∧
      task.history = [msg] ∧
      task.context_id = some (msg.context_id.getD fresh.context_id) ∧
      (TaskStore.insert fresh.task_id task store) task.id = some task ∧
      (∀ k, k ≠ fresh.task_id →
        (TaskStore.insert fresh.task_id task store) k = store k) := by
  refine ⟨_, rfl, rfl, hfresh, rfl, rfl, rfl, ?_, ?_⟩
  · simp [TaskStore.insert]
  · intro k hk
    simp [TaskStore.insert, hk]

/-- Witness for C7: sending `msgFix` into the empty store with the
fresh values `freshFix`. -/
theorem send_message_creates_task_witness :
    new_task_store freshFix.task_id = none ∧
    (∃ task : Task,
      handle_send_message (JsonId.num 1) (RawParams.send msgFix)
          new_task_store freshFix =
        (JsonRpcResponse.success (JsonId.num 1) task,
         TaskStore.insert freshFix.task_id task new_task_store) ∧
      task.id = freshFix.task_id ∧
      new_task_store task.id = none ∧
      task.status.state = TaskState.Working ∧
      task.history = [msgFix] ∧
      task.context_id = some (msgFix.context_id.getD freshFix.context_id) ∧
      (TaskStore.insert freshFix.task_id task new_task_store) task.id
        = some task ∧
      (∀ k, k ≠ freshFix.task_id →
        (TaskStore.insert freshFix.task_id task new_task_store) k
          = new_task_store k)) :=
  ⟨rfl,
   send_message_creates_task (JsonId.num 1) msgFix new_task_store freshFix rfl⟩

end OpenCrabs
